import Mathlib

/-!
Verification of the RAG pipeline of `simple-notebooklm`.

Shallow embedding of the core modules:
* `utils/embeddings.py`   — `generate_embeddings_batch`
* `utils/s3_vectors.py`   — `put_vectors`, `query_vectors`,
  `delete_vectors_by_keys`, `delete_vectors_by_document`
* `utils/rag_engine.py`   — `retrieve_context`, `generate_answer`
* `utils/text_splitter.py` — `split_documents`

Numeric scores (distances, similarities) are modelled over `ℚ`;
Python strings are modelled as Lean `String` (character lists), and
Python's decimal rendering of integers (`str(n)` / f-string braces)
is modelled by an explicit decimal-digit function.
Calls to external backends (Bedrock, S3 Vectors) are oracles passed in
as function arguments; functions that may raise return `Except String`.
-/

/-- An embedding vector (Python `List[float]`). -/
abbrev Vec := List ℚ

/-! ## Decimal rendering of naturals, modelling Python `str(n)` -/

/-- The decimal digit character for `n < 10` (total, defaulting to `0`). -/
def digitChar10 : Nat → Char
  | 0 => '0' | 1 => '1' | 2 => '2' | 3 => '3' | 4 => '4'
  | 5 => '5' | 6 => '6' | 7 => '7' | 8 => '8' | 9 => '9'
  | _ => '0'

/-- Most-significant-first decimal digits of `n`, prepended to `acc`.
Structural recursion on `fuel` (any `fuel > n` gives the digits). -/
def natDigitsCore (fuel : Nat) (n : Nat) (acc : List Char) : List Char :=
  match fuel with
  | 0 => acc
  | fuel + 1 =>
    if n < 10 then digitChar10 n :: acc
    else natDigitsCore fuel (n / 10) (digitChar10 (n % 10) :: acc)

/-- Decimal digit string of `n`, as a character list. -/
def natStr (n : Nat) : List Char := natDigitsCore (n + 1) n []

/-- Python `str(n)` for a natural number. -/
def pyStrNat (n : Nat) : String := ⟨natStr n⟩

/-- Python `str(i)` for an integer (decimal, with a leading minus sign). -/
def pyStrInt (i : Int) : String :=
  if i < 0 then "-" ++ pyStrNat i.natAbs else pyStrNat i.natAbs

/-! ## Data model (`Document`s, `Chunk`s, stored vectors) -/

/-- One extracted document page (`document_processor.py` output item). -/
structure Doc where
  text : String
  document : String
  page : Int
  total_pages : Int
  source_type : String
deriving DecidableEq

/-- Chunk metadata built by `TextSplitter.split_documents`. -/
structure ChunkMeta where
  document : String
  page : Int
  total_pages : Int
  source_type : String
  chunk_id : String
  chunk_index : Int
  total_chunks : Int
  chunk_size : Int
deriving DecidableEq

/-- A chunk (`{'content': ..., 'metadata': ...}`). -/
structure Chunk where
  content : String
  meta : ChunkMeta
deriving DecidableEq

/-- String-encoded metadata as persisted by `put_vectors`. -/
structure StoredMeta where
  content : String
  document : String
  page : String
  chunk_index : String
  source_type : String
deriving DecidableEq

/-- One vector item sent to the S3 Vectors backend by `put_vectors`. -/
structure VectorItem where
  key : String
  data : Vec
  metadata : StoredMeta
deriving DecidableEq

/-- A vector as held by the backend index (state of the store). -/
structure StoredVector where
  key : String
  vector : Vec
  metadata : StoredMeta
deriving DecidableEq

/-! ## `EmbeddingsGenerator.generate_embeddings_batch`
(`utils/embeddings.py`, lines 74–116)

`embed` is the oracle for `generate_embedding` on one text: `some v` when
the Bedrock call succeeds, `none` when it raises.  The loop appends the
vector on success and `None` on failure, keeping index alignment. -/

/-- The batch loop of `generate_embeddings_batch`: one entry per input
text, `none` recorded at each failed position. -/
def generate_embeddings_batch (embed : String → Option Vec) :
    List String → List (Option Vec)
  | [] => []
  | t :: ts => embed t :: generate_embeddings_batch embed ts

/-! ## `S3VectorStore.put_vectors` (`utils/s3_vectors.py`, lines 31–115) -/

/-- Build the backend item for one valid `(chunk, embedding)` pair. -/
def toVectorItem (c : Chunk) (e : Vec) : VectorItem :=
  { key := c.meta.chunk_id
    data := e
    metadata :=
      { content := c.content
        document := c.meta.document
        page := pyStrInt c.meta.page
        chunk_index := pyStrInt c.meta.chunk_index
        source_type := c.meta.source_type } }

/-- Result dictionary of `put_vectors` (`responses` abstracted to the
items sent across all batches). -/
structure PutResult where
  total_stored : Nat
  batches : Nat
  sent : List VectorItem
deriving DecidableEq

/-- The batch loop of `put_vectors`: slices of at most 500 valid items,
one backend call per slice.  Returns the items sent and the number of
batches (the length of `responses`).  Structural recursion on `fuel`
(any `fuel ≥ items.length` runs the loop to completion). -/
def putLoopAux (fuel : Nat) (items : List (Chunk × Vec)) :
    List VectorItem × Nat :=
  match fuel with
  | 0 => ([], 0)
  | fuel + 1 =>
    if items.isEmpty then ([], 0)
    else
      let batch := items.take 500
      let rest := putLoopAux fuel (items.drop 500)
      (batch.map (fun p => toVectorItem p.1 p.2) ++ rest.1, rest.2 + 1)

/-- The batch loop of `put_vectors`, run to completion. -/
def putLoop (items : List (Chunk × Vec)) : List VectorItem × Nat :=
  putLoopAux items.length items

/-- `put_vectors`: validates lengths, filters out `None` embeddings,
validates non-emptiness, then uploads in batches of 500. -/
def put_vectors (chunks : List Chunk) (embeddings : List (Option Vec)) :
    Except String PutResult :=
  if chunks.length ≠ embeddings.length then
    .error ("Chunks (" ++ pyStrNat chunks.length ++ ") and embeddings ("
      ++ pyStrNat embeddings.length ++ ") must have same length")
  else
    let valid_items := ((chunks.zip embeddings).filterMap
      fun p => p.2.map fun v => (p.1, v))
    if valid_items.isEmpty then .error "No valid embeddings to store"
    else
      let r := putLoop valid_items
      .ok { total_stored := valid_items.length, batches := r.2, sent := r.1 }

/-! ## `S3VectorStore.query_vectors` (`utils/s3_vectors.py`, lines 117–170)

The backend response items carry optional metadata fields and an
optional distance; `query_vectors` reads them with `dict.get` defaults
and converts the string-encoded `page` / `chunk_index` with `int(...)`
(modelled by `String.toInt?`; a parse failure raises). -/

/-- One item of the backend `QueryVectors` response. -/
structure RawVector where
  key : String
  content : Option String
  document : Option String
  page : Option String
  chunk_index : Option String
  source_type : Option String
  distance : Option ℚ
deriving DecidableEq

/-- A retrieved chunk as returned by `query_vectors`. -/
structure RetrievedChunk where
  content : String
  document : String
  page : Int
  chunk_index : Int
  source_type : String
  chunk_id : String
  distance : ℚ
  similarity : ℚ
deriving DecidableEq

/-- `int(metadata.get(field, dflt))`: the default is already an int;
a present string value must parse as a decimal integer. -/
def pyIntOfMeta (v : Option String) (dflt : Int) : Except String Int :=
  match v with
  | none => .ok dflt
  | some s =>
    match s.toInt? with
    | some n => .ok n
    | none => .error "invalid literal for int() with base 10"

/-- Convert one backend response item into a result dictionary
(`query_vectors` loop body, `s3_vectors.py` lines 152–165). -/
def toRetrieved (r : RawVector) : Except String RetrievedChunk := do
  let page ← pyIntOfMeta r.page 1
  let ci ← pyIntOfMeta r.chunk_index 0
  .ok { content := r.content.getD ""
        document := r.document.getD ""
        page := page
        chunk_index := ci
        source_type := r.source_type.getD ""
        chunk_id := r.key
        distance := r.distance.getD 0
        similarity := 1 - r.distance.getD 0 }

/-- The result-building loop of `query_vectors` over the backend
response (its network call and `topK` are the backend's concern). -/
def query_vectors : List RawVector → Except String (List RetrievedChunk)
  | [] => .ok []
  | r :: rs => do
    let c ← toRetrieved r
    let cs ← query_vectors rs
    .ok (c :: cs)

/-! ## `RAGEngine.retrieve_context` (`utils/rag_engine.py`, lines 36–83)

The question embedding and the store query are oracles; `results` below
is the list `query_vectors` returned for the question. -/

/-- Return dictionary of `retrieve_context`. -/
structure RetrieveResult where
  chunks : List RetrievedChunk
  total_retrieved : Nat
  total_relevant : Nat
  has_relevant_context : Bool
deriving DecidableEq

/-- Threshold filtering and statistics of `retrieve_context`. -/
def retrieve_context (similarity_threshold : ℚ)
    (results : List RetrievedChunk) : RetrieveResult :=
  let filtered_results := results.filter
    fun r => similarity_threshold ≤ r.similarity
  { chunks := filtered_results
    total_retrieved := results.length
    total_relevant := filtered_results.length
    has_relevant_context := decide (0 < filtered_results.length) }

/-! ## `RAGEngine.generate_answer` (`utils/rag_engine.py`, lines 85–180) -/

/-- One entry of the `sources` list. -/
structure SourceEntry where
  document : String
  page : Int
  similarity : ℚ
  preview : String
deriving DecidableEq

/-- Return dictionary of `generate_answer` (the `model_used` field is
a configuration constant and is omitted). -/
structure AnswerResult where
  answer : String
  sources : List SourceEntry
  has_answer : Bool
deriving DecidableEq

/-- Python string slicing `s[:n]` (by characters). -/
def pySlice (s : String) (n : Nat) : String := ⟨s.data.take n⟩

/-- `chunk['content'][:200] + '...' if len(chunk['content']) > 200
else chunk['content']` (`rag_engine.py` line 118). -/
def mkPreview (content : String) : String :=
  if content.length > 200 then pySlice content 200 ++ "..." else content

/-- One entry appended to `sources` (`rag_engine.py` lines 114–119). -/
def mkSourceEntry (c : RetrievedChunk) : SourceEntry :=
  { document := c.document
    page := c.page
    similarity := c.similarity
    preview := mkPreview c.content }

/-- Stand-in for Python's `f"{q:.2f}"` rendering of a similarity score;
the exact numeral text is immaterial to every property proved here. -/
def ratStr2 (q : ℚ) : String := pyStrInt q.num ++ "/" ++ pyStrNat q.den

/-- One labelled context block (`rag_engine.py` lines 108–112). -/
def contextPart (i : Nat) (c : RetrievedChunk) : String :=
  "[문서 " ++ pyStrNat i ++ ": " ++ c.document ++ ", 페이지 "
    ++ pyStrInt c.page ++ ", 유사도: " ++ ratStr2 c.similarity ++ "]\n"
    ++ c.content

/-- The `enumerate(context_chunks, 1)` loop building `context_parts`. -/
def contextParts : Nat → List RetrievedChunk → List String
  | _, [] => []
  | i, c :: cs => contextPart i c :: contextParts (i + 1) cs

/-- The NotebookLM-style prompt (`rag_engine.py` lines 124–147). -/
def buildPrompt (question context : String) : String :=
  "당신은 문서 기반 질의응답 AI입니다. 아래 제공된 문서 청크들을 분석하여 질문에 답변하세요.\n\n"
    ++ "검색된 문서 청크들:\n" ++ context ++ "\n\n질문: " ++ question
    ++ "\n\n중요한 답변 규칙:\n"
    ++ "1. **관련성 판단**: 제공된 청크들 중에서 질문과 실제로 관련 있는 내용만 사용하세요.\n"
    ++ "   - 유사도 점수가 낮더라도, 의미상 질문과 관련이 있다면 사용할 수 있습니다.\n"
    ++ "   - 예: \"만점 받으려면?\" → \"채점 기준\", \"평가 항목\" 등의 청크가 관련 있음\n\n"
    ++ "2. **관련 없는 청크 무시**: 질문과 무관한 청크는 무시하고 답변에 포함하지 마세요.\n\n"
    ++ "3. **종합적 답변**: 여러 청크의 정보를 종합하여 구조화된 답변을 제공하세요.\n"
    ++ "   - 관련 항목이 여러 개라면 번호를 매기거나 카테고리로 나누세요.\n"
    ++ "   - 각 항목에 대해 상세히 설명하세요.\n\n"
    ++ "4. **출처 명시**: 답변에 사용한 정보의 출처(문서명, 페이지)를 반드시 표시하세요.\n"
    ++ "   - 예: \"과제 설명서(p.5)에 따르면...\"\n\n"
    ++ "5. **정보 부족 시**: 제공된 문서에 관련 정보가 전혀 없다면, 솔직하게 \"제공된 문서에서 관련 정보를 찾을 수 없습니다\"라고 답변하세요.\n\n"
    ++ "답변을 시작하세요:"

/-- The fixed no-relevant-content answer (`rag_engine.py` line 98). -/
def noRelevantAnswer : String :=
  "죄송합니다. 업로드된 문서에서 질문과 관련된 내용을 찾을 수 없습니다. 다른 질문을 시도해보시거나 관련 문서를 업로드해주세요."

/-- `generate_answer`: `llm` is the Bedrock `invoke_model` oracle; the
second component counts how many backend calls were issued. -/
def generate_answer (llm : String → Except String String)
    (question : String) (context_chunks : List RetrievedChunk) :
    Except String AnswerResult × Nat :=
  if context_chunks.isEmpty then
    (.ok { answer := noRelevantAnswer, sources := [], has_answer := false }, 0)
  else
    let sources := context_chunks.map mkSourceEntry
    let context := String.intercalate "\n\n" (contextParts 1 context_chunks)
    match llm (buildPrompt question context) with
    | .ok answer => (.ok { answer := answer, sources := sources, has_answer := true }, 1)
    | .error e => (.error ("Failed to generate answer with Claude: " ++ e), 1)

/-! ## Deletion (`utils/s3_vectors.py`, lines 224–317)

The store is modelled as the list of vectors held by the backend index;
the backend `DeleteVectors` call removes every vector whose key occurs
in the submitted key list. -/

/-- Effect of one backend `DeleteVectors` call on the index. -/
def backendDeleteKeys (store : List StoredVector) (keys : List String) :
    List StoredVector :=
  store.filter fun v => decide (¬ v.key ∈ keys)

/-- The batch loop of `delete_vectors_by_keys`: slices of at most 500
keys, one backend call per slice.  Returns the resulting store, the
`deleted_count`, and the number of backend calls.  Structural recursion
on `fuel` (any `fuel ≥ keys.length` runs the loop to completion). -/
def deleteLoopAux (fuel : Nat) (store : List StoredVector)
    (keys : List String) : List StoredVector × Nat × Nat :=
  match fuel with
  | 0 => (store, 0, 0)
  | fuel + 1 =>
    if keys.isEmpty then (store, 0, 0)
    else
      let batch := keys.take 500
      let r := deleteLoopAux fuel (backendDeleteKeys store batch) (keys.drop 500)
      (r.1, batch.length + r.2.1, 1 + r.2.2)

/-- The batch loop of `delete_vectors_by_keys`, run to completion. -/
def deleteLoop (store : List StoredVector) (keys : List String) :
    List StoredVector × Nat × Nat :=
  deleteLoopAux keys.length store keys

/-- `delete_vectors_by_keys` (`s3_vectors.py` lines 224–281): empty key
list returns `deleted_count = 0` before any backend call. -/
def delete_vectors_by_keys (store : List StoredVector)
    (keys : List String) : List StoredVector × Nat × Nat :=
  if keys.isEmpty then (store, 0, 0) else deleteLoop store keys

/-- `delete_vectors_by_document` (`s3_vectors.py` lines 283–317): list
all vectors, filter client-side on the `document` metadata field, then
delete the matching keys.  Returns the store and `deleted_count`. -/
def delete_vectors_by_document (store : List StoredVector)
    (document_name : String) : List StoredVector × Nat :=
  let keys_to_delete :=
    (store.filter fun v => decide (v.metadata.document = document_name)).map
      fun v => v.key
  if keys_to_delete.isEmpty then (store, 0)
  else
    let r := delete_vectors_by_keys store keys_to_delete
    (r.1, r.2.1)

/-! ## `TextSplitter.split_documents` (`utils/text_splitter.py`, lines 29–66)

`RecursiveCharacterTextSplitter.split_text` is external LangChain code
and enters as the oracle `split`; the claims proved here hold for every
splitting behaviour. -/

/-- `f"{document}_chunk_{global_chunk_id}"`. -/
def chunkId (document : String) (g : Nat) : String :=
  document ++ "_chunk_" ++ pyStrNat g

/-- The inner loop over one document's chunks: `i` is `chunk_index`
(enumeration within the document), `g` the global counter. -/
def chunkLoop (d : Doc) (total : Nat) :
    List String → Nat → Nat → List Chunk
  | [], _, _ => []
  | t :: ts, i, g =>
    { content := t
      meta := { document := d.document
                page := d.page
                total_pages := d.total_pages
                source_type := d.source_type
                chunk_id := chunkId d.document g
                chunk_index := Int.ofNat i
                total_chunks := Int.ofNat total
                chunk_size := Int.ofNat t.length } }
      :: chunkLoop d total ts (i + 1) (g + 1)

/-- `split_documents`: outer loop over documents, threading the global
chunk counter (`global_chunk_id`, initially 0 in the source). -/
def split_documents (split : String → List String) :
    List Doc → Nat → List Chunk
  | [], _ => []
  | d :: ds, g =>
    let chunks := split d.text
    chunkLoop d chunks.length chunks 0 g
      ++ split_documents split ds (g + chunks.length)

/-! ## Auxiliary decoder and concrete fixtures

`decodeDigits` inverts the decimal rendering (used to prove that the
rendering is injective); the `…W` definitions are concrete inputs used
by the closed instance theorems. -/

/-- Read a decimal digit list back as a natural number. -/
def decodeDigits (l : List Char) : Nat :=
  l.foldl (fun a c => 10 * a + (c.toNat - 48)) 0

/-- A concrete embedding vector. -/
def vecW : Vec := [1]

/-- A concrete chunk whose id carries the global counter value `g`. -/
def chunkW (g : Nat) : Chunk :=
  { content := "c"
    meta := { document := "doc", page := 1, total_pages := 1
              source_type := "txt", chunk_id := chunkId "doc" g
              chunk_index := 0, total_chunks := 5, chunk_size := 1 } }

/-- Five concrete chunks. -/
def chunksW : List Chunk :=
  [chunkW 0, chunkW 1, chunkW 2, chunkW 3, chunkW 4]

/-- Five embedding results, the third one failed. -/
def embsW : List (Option Vec) :=
  [some vecW, some vecW, none, some vecW, some vecW]

/-- A backend query response item with no distance and no
page/chunk-index metadata. -/
def rawW : RawVector :=
  { key := "k", content := some "hello", document := some "doc"
    page := none, chunk_index := none, source_type := some "txt"
    distance := none }

/-- A backend query response item carrying a key and nothing else
(no metadata fields, no distance). -/
def rawNoMeta (key : String) : RawVector :=
  { key := key, content := none, document := none, page := none
    chunk_index := none, source_type := none, distance := none }

/-- The fully defaulted retrieved chunk for key `key`: empty strings,
page 1, chunk_index 0, distance 0, similarity 1. -/
def defaultedChunk (key : String) : RetrievedChunk :=
  { content := "", document := "", page := 1, chunk_index := 0
    source_type := "", chunk_id := key, distance := 0, similarity := 1 }

/-- The retrieved chunk corresponding to `rawW`. -/
def retrievedW : RetrievedChunk :=
  { content := "hello", document := "doc", page := 1, chunk_index := 0
    source_type := "txt", chunk_id := "k", distance := 0, similarity := 1 }

/-- Concrete stored metadata for document `d`. -/
def storedMetaW (d : String) : StoredMeta :=
  { content := "c", document := d, page := "1", chunk_index := "0"
    source_type := "txt" }

/-- A concrete store holding one vector of document `A` and one of
document `B`. -/
def storeW : List StoredVector :=
  [ { key := "ka", vector := vecW, metadata := storedMetaW "A" }
  , { key := "kb", vector := vecW, metadata := storedMetaW "B" } ]

/-- A generative-model oracle that always answers. -/
def llmW : String → Except String String := fun _ => .ok "answer"

/-- A 201-character content string. -/
def longContentW : String := ⟨List.replicate 201 'a'⟩

/-- A retrieved chunk whose content is 201 characters long. -/
def longChunkW : RetrievedChunk := { retrievedW with content := longContentW }

/-- The answer produced by `llmW` on the one-chunk context
`[retrievedW]`. -/
def answerW : AnswerResult :=
  { answer := "answer", sources := [mkSourceEntry retrievedW]
    has_answer := true }

/-- A concrete splitting oracle producing two chunks per document. -/
def splitW : String → List String := fun t => [t, t]

/-- Two concrete documents. -/
def docsW : List Doc :=
  [ { text := "ta", document := "a", page := 1, total_pages := 1
      source_type := "txt" }
  , { text := "tb", document := "b", page := 1, total_pages := 1
      source_type := "txt" } ]

/-- Three concrete texts to embed. -/
def textsW : List String := ["t0", "t1", "t2"]

/-- An embedding oracle failing exactly on `"t1"`. -/
def embedW : String → Option Vec :=
  fun t => if t = "t1" then none else some vecW

/-- An embedding oracle that always succeeds. -/
def embedW2 : String → Option Vec := fun _ => some vecW

/-! # Theorems -/

/-! ## Helper lemmas -/

theorem generate_embeddings_batch_length (e : String → Option Vec)
    (texts : List String) :
    (generate_embeddings_batch e texts).length = texts.length := by
  induction texts with
  | nil => rfl
  | cons t ts ih => simp [generate_embeddings_batch, ih]

theorem generate_embeddings_batch_getElem (e : String → Option Vec) :
    ∀ (texts : List String) (i : Nat) (h : i < texts.length),
      (generate_embeddings_batch e texts)[i]? = some (e texts[i]) := by
  intro texts
  induction texts with
  | nil => intro i h; simp at h
  | cons t ts ih =>
    intro i h
    cases i with
    | zero => simp [generate_embeddings_batch]
    | succ j =>
      have hj : j < ts.length := by simpa using h
      simpa [generate_embeddings_batch] using ih j hj

theorem length_filter_mono {α : Type} (p q : α → Bool) (l : List α)
    (h : ∀ a ∈ l, p a = true → q a = true) :
    (l.filter p).length ≤ (l.filter q).length := by
  induction l with
  | nil => simp
  | cons a t ih =>
    have ht : ∀ x ∈ t, p x = true → q x = true :=
      fun x hx => h x (List.mem_cons_of_mem a hx)
    simp only [List.filter_cons]
    cases hp : p a with
    | false =>
      cases hq : q a with
      | false => exact ih ht
      | true =>
        simp only [List.length_cons]
        exact Nat.le_succ_of_le (ih ht)
    | true =>
      rw [h a (List.mem_cons_self a t) hp]
      simp only [List.length_cons]
      exact Nat.succ_le_succ (ih ht)

/-! ## C1 — `generate_embeddings_batch` index alignment -/

/-- C1: for every input list of texts, `generate_embeddings_batch`
returns a list of the same length, position `i` of the output is
exactly the embedding oracle's result on text `i` (the vector on
success, the `None` marker on failure), and the result at position `i`
depends only on the oracle's behaviour at text `i`, so a failure at one
position does not alter any other position. -/
theorem generate_embeddings_batch_spec (e1 e2 : String → Option Vec)
    (texts : List String) (i : Nat) (h : i < texts.length) :
    (generate_embeddings_batch e1 texts).length = texts.length ∧
    (generate_embeddings_batch e1 texts)[i]? = some (e1 texts[i]) ∧
    (e1 texts[i] = e2 texts[i] →
      (generate_embeddings_batch e1 texts)[i]? =
        (generate_embeddings_batch e2 texts)[i]?) := by
  refine ⟨generate_embeddings_batch_length e1 texts,
    generate_embeddings_batch_getElem e1 texts i h, fun hagree => ?_⟩
  rw [generate_embeddings_batch_getElem e1 texts i h,
    generate_embeddings_batch_getElem e2 texts i h, hagree]

/-- C1 instance: three texts, the middle embedding fails; the output
has length 3, holds the failure marker exactly at position 1, and the
two oracles (one failing on `"t1"`, one total) agree at position 0. -/
theorem generate_embeddings_batch_spec_witness :
    (0 : Nat) < textsW.length ∧
    ((generate_embeddings_batch embedW textsW).length = textsW.length ∧
     (generate_embeddings_batch embedW textsW)[0]? = some (embedW textsW[0]) ∧
     (embedW textsW[0] = embedW2 textsW[0] →
       (generate_embeddings_batch embedW textsW)[0]? =
         (generate_embeddings_batch embedW2 textsW)[0]?)) :=
  ⟨by decide, generate_embeddings_batch_spec embedW embedW2 textsW 0 (by decide)⟩

/-! ## C4 — `generate_answer` on an empty chunk list -/

/-- C4: called with an empty list of context chunks, `generate_answer`
returns the fixed no-relevant-content answer with an empty sources list
and `has_answer = false`, makes zero calls to the generative-model
backend (the call counter is 0), and its result does not depend on the
model oracle at all. -/
theorem generate_answer_empty_spec
    (llm llm2 : String → Except String String) (question : String) :
    generate_answer llm question [] =
      (.ok { answer := noRelevantAnswer, sources := [], has_answer := false },
        0) ∧
    generate_answer llm question [] = generate_answer llm2 question [] :=
  ⟨rfl, rfl⟩

/-! ## C6 — threshold filtering is antitone -/

/-- C6: for a fixed query result list, the `total_relevant` count of
`retrieve_context` is antitone in the similarity threshold: raising the
threshold never increases the number of kept results. -/
theorem retrieve_context_threshold_antitone (t1 t2 : ℚ) (h : t1 ≤ t2)
    (results : List RetrievedChunk) :
    (retrieve_context t2 results).total_relevant ≤
      (retrieve_context t1 results).total_relevant := by
  simp only [retrieve_context]
  refine length_filter_mono _ _ results fun r _ hp => ?_
  simp only [decide_eq_true_eq] at hp ⊢
  exact le_trans h hp

/-- C6 instance: thresholds 0 ≤ 1 on a one-element result list. -/
theorem retrieve_context_threshold_antitone_witness :
    ((0 : ℚ) ≤ 1) ∧
    (retrieve_context 1 [retrievedW]).total_relevant ≤
      (retrieve_context 0 [retrievedW]).total_relevant :=
  ⟨by decide, retrieve_context_threshold_antitone 0 1 (by decide) [retrievedW]⟩

/-! ## C9 — deleting with an empty key list -/

/-- C9: `delete_vectors_by_keys` with an empty key list returns the
store unchanged, `deleted_count = 0`, and zero backend delete calls
(the early return fires before the batch loop). -/
theorem delete_vectors_by_keys_empty_spec (store : List StoredVector) :
    delete_vectors_by_keys store [] = (store, 0, 0) := rfl

/-! ## C2 — `put_vectors` validation, filtering, and `total_stored` -/

theorem zip_filterMap_length :
    ∀ (chunks : List Chunk) (embeddings : List (Option Vec)),
      chunks.length = embeddings.length →
      ((chunks.zip embeddings).filterMap
        fun p => p.2.map fun v => (p.1, v)).length
        = embeddings.countP fun e => e.isSome := by
  intro chunks
  induction chunks with
  | nil =>
    intro embeddings h
    cases embeddings with
    | nil => rfl
    | cons e es => simp at h
  | cons c cs ih =>
    intro embeddings h
    cases embeddings with
    | nil => simp at h
    | cons e es =>
      have h2 : cs.length = es.length := by simpa using h
      cases e with
      | none =>
        simp [List.zip_cons_cons, List.filterMap_cons, List.countP_cons,
          ih es h2]
      | some v =>
        simp [List.zip_cons_cons, List.filterMap_cons, List.countP_cons,
          ih es h2]

theorem putLoopAux_sent :
    ∀ (fuel : Nat) (items : List (Chunk × Vec)), items.length ≤ fuel →
      (putLoopAux fuel items).1 = items.map fun p => toVectorItem p.1 p.2 := by
  intro fuel
  induction fuel with
  | zero =>
    intro items h
    have hnil : items = [] := List.eq_nil_of_length_eq_zero (Nat.le_zero.mp h)
    subst hnil
    rfl
  | succ fuel ih =>
    intro items h
    by_cases he : items.isEmpty
    · have hnil : items = [] := by
        cases items with
        | nil => rfl
        | cons a t => simp [List.isEmpty] at he
      subst hnil
      rfl
    · have hpos : 0 < items.length := by
        cases items with
        | nil => simp [List.isEmpty] at he
        | cons a t => simp
      have hdrop : (items.drop 500).length ≤ fuel := by
        rw [List.length_drop]
        omega
      simp only [putLoopAux, he, if_false, Bool.false_eq_true]
      rw [ih (items.drop 500) hdrop, ← List.map_append,
        List.take_append_drop]

/-- C2: `put_vectors` fails with a validation error whenever the chunk
and embedding lists have different lengths; with equal lengths it fails
with a validation error when no embedding succeeded, and otherwise it
stores exactly the pairs whose embedding is not the `None` marker
(`sent` lists them in order) and reports `total_stored` equal to the
number of non-failure embeddings. -/
theorem put_vectors_spec (chunks : List Chunk)
    (embeddings : List (Option Vec)) :
    (chunks.length ≠ embeddings.length →
      put_vectors chunks embeddings =
        .error ("Chunks (" ++ pyStrNat chunks.length ++ ") and embeddings ("
          ++ pyStrNat embeddings.length ++ ") must have same length")) ∧
    (chunks.length = embeddings.length →
      embeddings.countP (fun e => e.isSome) = 0 →
      put_vectors chunks embeddings = .error "No valid embeddings to store") ∧
    (chunks.length = embeddings.length →
      0 < embeddings.countP (fun e => e.isSome) →
      ∃ b, put_vectors chunks embeddings = .ok
        { total_stored := embeddings.countP fun e => e.isSome
          batches := b
          sent := ((chunks.zip embeddings).filterMap
            fun p => p.2.map fun v => (p.1, v)).map
              fun p => toVectorItem p.1 p.2 }) := by
  refine ⟨fun hne => ?_, fun heq h0 => ?_, fun heq hpos => ?_⟩
  · simp [put_vectors, hne]
  · have hlen := zip_filterMap_length chunks embeddings heq
    have hnil : ((chunks.zip embeddings).filterMap
        fun p => p.2.map fun v => (p.1, v)) = [] := by
      apply List.eq_nil_of_length_eq_zero
      rw [hlen, h0]
    simp [put_vectors, heq, hnil]
  · have hlen := zip_filterMap_length chunks embeddings heq
    have hne2 : ((chunks.zip embeddings).filterMap
        fun p => p.2.map fun v => (p.1, v)).isEmpty = false := by
      cases hcase : ((chunks.zip embeddings).filterMap
        fun p => p.2.map fun v => (p.1, v)) with
      | nil => rw [hcase] at hlen; rw [← hlen] at hpos; simp at hpos
      | cons a t => rfl
    refine ⟨(putLoop ((chunks.zip embeddings).filterMap
      fun p => p.2.map fun v => (p.1, v))).2, ?_⟩
    have hsent : (putLoop ((chunks.zip embeddings).filterMap
        fun p => p.2.map fun v => (p.1, v))).1 =
        ((chunks.zip embeddings).filterMap
          fun p => p.2.map fun v => (p.1, v)).map
            fun p => toVectorItem p.1 p.2 :=
      putLoopAux_sent _ _ (Nat.le_refl _)
    simp only [put_vectors, heq, ne_eq, not_true_eq_false, if_false,
      hne2, Bool.false_eq_true]
    rw [hlen, hsent]

/-- C2 instance: five chunks with one failed embedding store exactly
four vectors and report `total_stored = 4`. -/
theorem put_vectors_spec_witness :
    chunksW.length = embsW.length ∧
    embsW.countP (fun e => e.isSome) = 4 ∧
    (∃ b, put_vectors chunksW embsW = .ok
      { total_stored := embsW.countP fun e => e.isSome
        batches := b
        sent := ((chunksW.zip embsW).filterMap
          fun p => p.2.map fun v => (p.1, v)).map
            fun p => toVectorItem p.1 p.2 }) :=
  ⟨by decide, by decide,
    (put_vectors_spec chunksW embsW).2.2 (by decide) (by decide)⟩

/-! ## C3 — `retrieve_context` similarity computation and filtering -/

theorem toRetrieved_sim (a : RawVector) (c : RetrievedChunk)
    (h : toRetrieved a = .ok c) : c.similarity = 1 - c.distance := by
  unfold toRetrieved at h
  cases hp : pyIntOfMeta a.page 1 with
  | error e => simp [hp, Bind.bind, Except.bind] at h
  | ok p =>
    cases hc : pyIntOfMeta a.chunk_index 0 with
    | error e => simp [hp, hc, Bind.bind, Except.bind] at h
    | ok ci =>
      simp only [hp, hc, Bind.bind, Except.bind, Pure.pure, Except.pure] at h
      cases h
      rfl

theorem query_vectors_sim :
    ∀ (raws : List RawVector) (results : List RetrievedChunk),
      query_vectors raws = .ok results →
      ∀ r ∈ results, r.similarity = 1 - r.distance := by
  intro raws
  induction raws with
  | nil =>
    intro results h r hr
    simp only [query_vectors] at h
    cases h
    simp at hr
  | cons a as ih =>
    intro results h r hr
    unfold query_vectors at h
    cases ha : toRetrieved a with
    | error e => simp [ha, Bind.bind, Except.bind] at h
    | ok c =>
      cases hq : query_vectors as with
      | error e => simp [ha, hq, Bind.bind, Except.bind] at h
      | ok cs =>
        simp only [ha, hq, Bind.bind, Except.bind, Pure.pure, Except.pure] at h
        cases h
        rcases List.mem_cons.mp hr with hrc | hrm
        · subst hrc
          exact toRetrieved_sim a r ha
        · exact ih cs hq r hrm

/-- C3: for any backend query response that converts successfully,
every returned result satisfies `similarity = 1 - distance`;
`retrieve_context` keeps exactly the results whose similarity is at
least the threshold, in their original rank order (the kept list is a
sublist of the query results), reports `total_retrieved` as the number
of query results and `total_relevant` as the number of kept results,
and sets `has_relevant_context` exactly when some result is kept. -/
theorem retrieve_context_spec (threshold : ℚ) (raws : List RawVector)
    (results : List RetrievedChunk)
    (h : query_vectors raws = .ok results) :
    (∀ r ∈ results, r.similarity = 1 - r.distance) ∧
    (retrieve_context threshold results).chunks.Sublist results ∧
    (∀ r, r ∈ (retrieve_context threshold results).chunks ↔
      r ∈ results ∧ threshold ≤ r.similarity) ∧
    (retrieve_context threshold results).total_retrieved = results.length ∧
    (retrieve_context threshold results).total_relevant =
      (retrieve_context threshold results).chunks.length ∧
    ((retrieve_context threshold results).has_relevant_context = true ↔
      (retrieve_context threshold results).chunks ≠ []) := by
  refine ⟨query_vectors_sim raws results h, ?_, ?_, rfl, rfl, ?_⟩
  · exact List.filter_sublist results
  · intro r
    simp [retrieve_context, List.mem_filter]
  · simp only [retrieve_context, decide_eq_true_eq]
    constructor
    · intro hpos
      exact List.ne_nil_of_length_pos hpos
    · intro hne
      exact List.length_pos.mpr hne

/-- C3 instance: one backend result at distance 0 converts with
similarity 1 and is kept at threshold 1. -/
theorem retrieve_context_spec_witness :
    query_vectors [rawW] = .ok [retrievedW] ∧
    ((∀ r ∈ [retrievedW], r.similarity = 1 - r.distance) ∧
     (retrieve_context 1 [retrievedW]).chunks.Sublist [retrievedW] ∧
     (∀ r, r ∈ (retrieve_context 1 [retrievedW]).chunks ↔
       r ∈ [retrievedW] ∧ 1 ≤ r.similarity) ∧
     (retrieve_context 1 [retrievedW]).total_retrieved =
       [retrievedW].length ∧
     (retrieve_context 1 [retrievedW]).total_relevant =
       (retrieve_context 1 [retrievedW]).chunks.length ∧
     ((retrieve_context 1 [retrievedW]).has_relevant_context = true ↔
       (retrieve_context 1 [retrievedW]).chunks ≠ [])) :=
  ⟨by simp [query_vectors, toRetrieved, pyIntOfMeta, rawW, retrievedW,
      Bind.bind, Except.bind, Pure.pure, Except.pure],
   retrieve_context_spec 1 [rawW] [retrievedW]
     (by simp [query_vectors, toRetrieved, pyIntOfMeta, rawW, retrievedW,
       Bind.bind, Except.bind, Pure.pure, Except.pure])⟩

/-! ## C10 — `query_vectors` defaults for missing fields -/

/-- C10: a backend result lacking the distance field is given distance
0 and similarity 1 (hence it passes every threshold `≤ 1`), and missing
metadata fields default to content `""`, document `""`, page 1,
chunk_index 0, source_type `""` instead of raising: a response item
with no metadata at all converts successfully to the fully defaulted
result, which the threshold filter keeps. -/
theorem query_vectors_defaults_spec (key : String) (t : ℚ) (ht : t ≤ 1)
    (r : RawVector) (hd : r.distance = none) :
    (∀ c, toRetrieved r = .ok c →
      c.distance = 0 ∧ c.similarity = 1 ∧ t ≤ c.similarity) ∧
    query_vectors [rawNoMeta key] = .ok [defaultedChunk key] ∧
    (retrieve_context t [defaultedChunk key]).total_relevant = 1 := by
  refine ⟨?_, ?_, ?_⟩
  · intro c hc
    unfold toRetrieved at hc
    cases hp : pyIntOfMeta r.page 1 with
    | error e => simp [hp, Bind.bind, Except.bind] at hc
    | ok p =>
      cases hci : pyIntOfMeta r.chunk_index 0 with
      | error e => simp [hp, hci, Bind.bind, Except.bind] at hc
      | ok ci =>
        simp only [hp, hci, Bind.bind, Except.bind, Pure.pure, Except.pure] at hc
        cases hc
        refine ⟨by simp [hd], by simp [hd], ?_⟩
        simp only [hd]
        simpa using ht
  · simp [query_vectors, toRetrieved, pyIntOfMeta, rawNoMeta,
      defaultedChunk, Bind.bind, Except.bind, Pure.pure, Except.pure]
  · simp [retrieve_context, defaultedChunk, ht]

/-- C10 instance: the concrete response item `rawW` has no distance
field; threshold 1 is a threshold `≤ 1`. -/
theorem query_vectors_defaults_spec_witness :
    ((1 : ℚ) ≤ 1 ∧ rawW.distance = none) ∧
    ((∀ c, toRetrieved rawW = .ok c →
      c.distance = 0 ∧ c.similarity = 1 ∧ (1 : ℚ) ≤ c.similarity) ∧
    query_vectors [rawNoMeta "k"] = .ok [defaultedChunk "k"] ∧
    (retrieve_context 1 [defaultedChunk "k"]).total_relevant = 1) :=
  ⟨⟨by decide, rfl⟩, query_vectors_defaults_spec "k" 1 (by decide) rawW rfl⟩

/-! ## C5 — `delete_vectors_by_document` precision and frame -/

theorem backendDeleteKeys_nil (store : List StoredVector) :
    backendDeleteKeys store [] = store := by
  simp [backendDeleteKeys]

theorem backendDeleteKeys_append (store : List StoredVector)
    (a b : List String) :
    backendDeleteKeys (backendDeleteKeys store a) b =
      backendDeleteKeys store (a ++ b) := by
  unfold backendDeleteKeys
  rw [List.filter_filter]
  apply List.filter_congr
  intro v hv
  by_cases h1 : v.key ∈ a <;> by_cases h2 : v.key ∈ b <;>
    simp [h1, h2, List.mem_append]

theorem deleteLoopAux_store :
    ∀ (fuel : Nat) (store : List StoredVector) (keys : List String),
      keys.length ≤ fuel →
      (deleteLoopAux fuel store keys).1 = backendDeleteKeys store keys := by
  intro fuel
  induction fuel with
  | zero =>
    intro store keys h
    have hnil : keys = [] := List.eq_nil_of_length_eq_zero (Nat.le_zero.mp h)
    subst hnil
    simp [deleteLoopAux, backendDeleteKeys_nil]
  | succ fuel ih =>
    intro store keys h
    by_cases he : keys.isEmpty
    · have hnil : keys = [] := by
        cases keys with
        | nil => rfl
        | cons a t => simp [List.isEmpty] at he
      subst hnil
      simp [deleteLoopAux, backendDeleteKeys_nil]
    · have hpos : 0 < keys.length := by
        cases keys with
        | nil => simp [List.isEmpty] at he
        | cons a t => simp
      have hdrop : (keys.drop 500).length ≤ fuel := by
        rw [List.length_drop]
        omega
      simp only [deleteLoopAux, he, if_false, Bool.false_eq_true]
      rw [ih (backendDeleteKeys store (keys.take 500)) (keys.drop 500) hdrop,
        backendDeleteKeys_append, List.take_append_drop]

/-- C5: when every stored key is distinct (keys are the store's
identities), `delete_vectors_by_document` removes every vector whose
`metadata.document` equals the given name, keeps every vector whose
document differs — unchanged, as the very same record — and adds
nothing (the resulting store is a sublist of the original). -/
theorem delete_vectors_by_document_spec (store : List StoredVector)
    (document_name : String)
    (hkeys : (store.map fun v => v.key).Nodup) :
    (∀ v ∈ (delete_vectors_by_document store document_name).1,
      v.metadata.document ≠ document_name) ∧
    (∀ v ∈ store, v.metadata.document ≠ document_name →
      v ∈ (delete_vectors_by_document store document_name).1) ∧
    (delete_vectors_by_document store document_name).1.Sublist store := by
  unfold delete_vectors_by_document
  by_cases hni : ((store.filter
      fun v => decide (v.metadata.document = document_name)).map
        fun v => v.key).isEmpty
  · simp only [hni, if_true]
    have hfil : store.filter
        (fun v => decide (v.metadata.document = document_name)) = [] := by
      cases hc : store.filter
          (fun v => decide (v.metadata.document = document_name)) with
      | nil => rfl
      | cons a t => rw [hc] at hni; simp at hni
    have hall : ∀ v ∈ store, v.metadata.document ≠ document_name := by
      intro v hv hdoc
      have hmem : v ∈ store.filter
          (fun v => decide (v.metadata.document = document_name)) :=
        List.mem_filter.mpr ⟨hv, by simp [hdoc]⟩
      rw [hfil] at hmem
      simp at hmem
    exact ⟨hall, fun v hv _ => hv, List.Sublist.refl store⟩
  · simp only [hni, if_false, Bool.false_eq_true,
      delete_vectors_by_keys, deleteLoop]
    rw [deleteLoopAux_store _ _ _ (Nat.le_refl _)]
    unfold backendDeleteKeys
    refine ⟨?_, ?_, List.filter_sublist store⟩
    · intro v hv hdoc
      have hsplit := List.mem_filter.mp hv
      have hnotin : ¬ v.key ∈ ((store.filter
          fun v => decide (v.metadata.document = document_name)).map
            fun v => v.key) := by simpa using hsplit.2
      apply hnotin
      exact List.mem_map.mpr ⟨v,
        List.mem_filter.mpr ⟨hsplit.1, by simp [hdoc]⟩, rfl⟩
    · intro v hv hne
      refine List.mem_filter.mpr ⟨hv, ?_⟩
      simp only [decide_eq_true_eq]
      intro hin
      rcases List.mem_map.mp hin with ⟨w, hwfil, hwk⟩
      rcases List.mem_filter.mp hwfil with ⟨hwstore, hwdoc⟩
      have hwdoc2 : w.metadata.document = document_name := by
        simpa using hwdoc
      have hvw : w = v :=
        List.inj_on_of_nodup_map hkeys hwstore hv hwk
      rw [hvw] at hwdoc2
      exact hne hwdoc2

/-- C5 instance: a two-vector store holding documents `A` and `B` with
distinct keys; deleting document `A` removes it and keeps `B`. -/
theorem delete_vectors_by_document_spec_witness :
    (storeW.map fun v => v.key).Nodup ∧
    ((∀ v ∈ (delete_vectors_by_document storeW "A").1,
      v.metadata.document ≠ "A") ∧
    (∀ v ∈ storeW, v.metadata.document ≠ "A" →
      v ∈ (delete_vectors_by_document storeW "A").1) ∧
    (delete_vectors_by_document storeW "A").1.Sublist storeW) :=
  ⟨by decide, delete_vectors_by_document_spec storeW "A" (by decide)⟩

/-! ## C8 — `generate_answer` source previews -/

set_option maxRecDepth 8000 in
/-- C8 counterexample: on a chunk whose content is 201 characters long,
the preview in the returned sources list has 203 characters — the first
200 characters plus the 3-character ellipsis — so it is not at most
200 characters long. -/
theorem generate_answer_preview_over_200 :
    (Except.map (fun r => r.sources.map fun s => s.preview.length)
      (generate_answer llmW "q" [longChunkW]).1) = .ok [203] ∧
    ¬ (203 ≤ 200) :=
  ⟨rfl, by decide⟩

/-- C8 (amended): every entry in the sources list carries the chunk's
document, page and similarity, and a preview that is the whole content
when the content has at most 200 characters, and otherwise the first
200 characters followed by `"..."` — hence at most 203 characters. -/
theorem generate_answer_sources_spec
    (llm : String → Except String String) (question : String)
    (chunks : List RetrievedChunk) (r : AnswerResult)
    (h : (generate_answer llm question chunks).1 = .ok r) :
    ∀ s ∈ r.sources, ∃ c ∈ chunks,
      s.document = c.document ∧ s.page = c.page ∧
      s.similarity = c.similarity ∧ s.preview.length ≤ 203 ∧
      (c.content.length ≤ 200 → s.preview = c.content) ∧
      (200 < c.content.length → s.preview = pySlice c.content 200 ++ "...") := by
  by_cases hne : chunks.isEmpty
  · have hnil : chunks = [] := by
      cases chunks with
      | nil => rfl
      | cons a t => simp [List.isEmpty] at hne
    subst hnil
    simp only [generate_answer, List.isEmpty_nil, if_true] at h
    cases h
    intro s hs
    simp at hs
  · simp only [generate_answer, hne, if_false, Bool.false_eq_true] at h
    cases hl : llm (buildPrompt question
        (String.intercalate "\n\n" (contextParts 1 chunks))) with
    | error e => rw [hl] at h; simp at h
    | ok ans =>
      rw [hl] at h
      cases h
      intro s hs
      rcases List.mem_map.mp hs with ⟨c, hc, hcs⟩
      refine ⟨c, hc, ?_⟩
      subst hcs
      by_cases hlen : c.content.length > 200
      · have hslice : (pySlice c.content 200).length = 200 := by
          simp only [pySlice]
          show (c.content.data.take 200).length = 200
          rw [List.length_take]
          have : c.content.data.length = c.content.length := rfl
          omega
        refine ⟨rfl, rfl, rfl, ?_, ?_, ?_⟩
        · simp only [mkSourceEntry, mkPreview, hlen, if_true]
          rw [String.length_append, hslice]
          decide
        · intro hle; omega
        · intro _; simp [mkSourceEntry, mkPreview, hlen]
      · refine ⟨rfl, rfl, rfl, ?_, ?_, ?_⟩
        · simp only [mkSourceEntry, mkPreview, hlen, if_false]
          omega
        · intro _; simp [mkSourceEntry, mkPreview, hlen]
        · intro hgt; omega

/-- C8 (amended) instance: a one-chunk context whose content is 5
characters long; the single source carries the chunk's document, page,
similarity, and its full content as preview. -/
theorem generate_answer_sources_spec_witness :
    (generate_answer llmW "q" [retrievedW]).1 = .ok answerW ∧
    (∀ s ∈ answerW.sources, ∃ c ∈ [retrievedW],
      s.document = c.document ∧ s.page = c.page ∧
      s.similarity = c.similarity ∧ s.preview.length ≤ 203 ∧
      (c.content.length ≤ 200 → s.preview = c.content) ∧
      (200 < c.content.length →
        s.preview = pySlice c.content 200 ++ "...")) :=
  ⟨rfl, generate_answer_sources_spec llmW "q" [retrievedW] answerW rfl⟩

/-! ## C7 — `split_documents` chunk indices and global chunk ids -/

theorem digitChar10_isDigit (k : Nat) : (digitChar10 k).isDigit = true := by
  unfold digitChar10
  split <;> rfl

theorem digitChar10_toNat (k : Nat) (hk : k < 10) :
    (digitChar10 k).toNat = 48 + k := by
  unfold digitChar10
  split
  all_goals simp_all
  omega

theorem natDigitsCore_append (fuel : Nat) :
    ∀ (n : Nat) (acc : List Char),
      natDigitsCore fuel n acc = natDigitsCore fuel n [] ++ acc := by
  induction fuel with
  | zero => intro n acc; simp [natDigitsCore]
  | succ fuel ih =>
    intro n acc
    by_cases h : n < 10
    · simp [natDigitsCore, h]
    · simp only [natDigitsCore, h, if_false]
      rw [ih (n / 10) (digitChar10 (n % 10) :: acc),
        ih (n / 10) [digitChar10 (n % 10)]]
      simp

theorem natDigitsCore_digits (fuel : Nat) :
    ∀ (n : Nat) (acc : List Char), (∀ c ∈ acc, c.isDigit = true) →
      ∀ c ∈ natDigitsCore fuel n acc, c.isDigit = true := by
  induction fuel with
  | zero => intro n acc hacc c hc; exact hacc c hc
  | succ fuel ih =>
    intro n acc hacc c hc
    by_cases h : n < 10
    · simp only [natDigitsCore, h, if_true] at hc
      rcases List.mem_cons.mp hc with h1 | h2
      · subst h1; exact digitChar10_isDigit n
      · exact hacc c h2
    · simp only [natDigitsCore, h, if_false] at hc
      refine ih (n / 10) (digitChar10 (n % 10) :: acc) ?_ c hc
      intro x hx
      rcases List.mem_cons.mp hx with h1 | h2
      · subst h1; exact digitChar10_isDigit _
      · exact hacc x h2

theorem natStr_digits (n : Nat) : ∀ c ∈ natStr n, c.isDigit = true :=
  natDigitsCore_digits (n + 1) n [] (by intro c hc; simp at hc)

theorem decode_natDigitsCore (fuel : Nat) :
    ∀ n, n < fuel → decodeDigits (natDigitsCore fuel n []) = n := by
  induction fuel with
  | zero => intro n h; omega
  | succ fuel ih =>
    intro n h
    by_cases hn : n < 10
    · simp only [natDigitsCore, hn, if_true]
      simp only [decodeDigits, List.foldl]
      rw [digitChar10_toNat n hn]
      omega
    · have hpos : 0 < n := by omega
      have hdiv : n / 10 < n := Nat.div_lt_self hpos (by omega)
      have h10 : n / 10 < fuel :=
        Nat.lt_of_lt_of_le hdiv (Nat.le_of_lt_succ h)
      simp only [natDigitsCore, hn, if_false]
      rw [natDigitsCore_append fuel (n / 10) [digitChar10 (n % 10)]]
      have hih := ih (n / 10) h10
      unfold decodeDigits at hih ⊢
      rw [List.foldl_append, hih]
      simp only [List.foldl]
      rw [digitChar10_toNat (n % 10) (Nat.mod_lt n (by omega))]
      have hcancel : 48 + n % 10 - 48 = n % 10 := by omega
      rw [hcancel]
      exact Nat.div_add_mod n 10

theorem natStr_inj {m n : Nat} (h : natStr m = natStr n) : m = n := by
  have hm := decode_natDigitsCore (m + 1) m (Nat.lt_succ_self m)
  have hn := decode_natDigitsCore (n + 1) n (Nat.lt_succ_self n)
  unfold natStr at h
  rw [h] at hm
  exact hm.symm.trans hn

theorem takeWhile_append_eq (p : Char → Bool) :
    ∀ (l1 : List Char) (c : Char) (t : List Char),
      (∀ x ∈ l1, p x = true) → p c = false →
      (l1 ++ c :: t).takeWhile p = l1 := by
  intro l1
  induction l1 with
  | nil => intro c t h1 h2; simp [List.takeWhile_cons, h2]
  | cons a l ih =>
    intro c t h1 h2
    have ha : p a = true := h1 a (List.mem_cons_self a l)
    simp only [List.cons_append, List.takeWhile_cons, ha, if_true]
    rw [ih c t (fun x hx => h1 x (List.mem_cons_of_mem a hx)) h2]

theorem chunkId_counter_inj {d1 d2 : String} {n1 n2 : Nat}
    (h : chunkId d1 n1 = chunkId d2 n2) : n1 = n2 := by
  have hdata : d1.data ++ ("_chunk_".data ++ natStr n1) =
      d2.data ++ ("_chunk_".data ++ natStr n2) := by
    have hd := congrArg String.data h
    simpa [chunkId, pyStrNat, String.data_append, List.append_assoc] using hd
  have hrev := congrArg List.reverse hdata
  simp only [List.reverse_append, List.append_assoc] at hrev
  have hsep : ("_chunk_".data).reverse
      = '_' :: ['k', 'n', 'u', 'h', 'c', '_'] := by decide
  rw [hsep] at hrev
  simp only [List.cons_append] at hrev
  have htw := congrArg (List.takeWhile Char.isDigit) hrev
  rw [takeWhile_append_eq Char.isDigit ((natStr n1).reverse) '_' _
      (fun x hx => natStr_digits n1 x (List.mem_reverse.mp hx)) (by decide),
    takeWhile_append_eq Char.isDigit ((natStr n2).reverse) '_' _
      (fun x hx => natStr_digits n2 x (List.mem_reverse.mp hx)) (by decide)]
    at htw
  exact natStr_inj (List.reverse_injective htw)

theorem chunkLoop_length (d : Doc) (total : Nat) :
    ∀ (ts : List String) (i g : Nat),
      (chunkLoop d total ts i g).length = ts.length := by
  intro ts
  induction ts with
  | nil => intro i g; rfl
  | cons t ts ih => intro i g; simp [chunkLoop, ih]

theorem chunkLoop_getElem (d : Doc) (total : Nat) :
    ∀ (ts : List String) (i g j : Nat) (hj : j < ts.length),
      (chunkLoop d total ts i g)[j]? = some
        { content := ts[j]
          meta := { document := d.document, page := d.page
                    total_pages := d.total_pages
                    source_type := d.source_type
                    chunk_id := chunkId d.document (g + j)
                    chunk_index := Int.ofNat (i + j)
                    total_chunks := Int.ofNat total
                    chunk_size := Int.ofNat (ts[j].length) } } := by
  intro ts
  induction ts with
  | nil => intro i g j hj; simp at hj
  | cons t ts ih =>
    intro i g j hj
    cases j with
    | zero => simp [chunkLoop]
    | succ k =>
      have hk : k < ts.length := by simpa using hj
      have hrec := ih (i + 1) (g + 1) k hk
      simp only [chunkLoop, List.getElem?_cons_succ]
      rw [hrec]
      have e1 : g + 1 + k = g + (k + 1) := by omega
      have e2 : i + 1 + k = i + (k + 1) := by omega
      simp [e1, e2]

theorem split_documents_getElem (split : String → List String) :
    ∀ (docs : List Doc) (g k : Nat),
      k < (split_documents split docs g).length →
      ∃ c, (split_documents split docs g)[k]? = some c ∧
        c.meta.chunk_id = chunkId c.meta.document (g + k) := by
  intro docs
  induction docs with
  | nil => intro g k hk; simp [split_documents] at hk
  | cons d ds ih =>
    intro g k hk
    simp only [split_documents] at hk ⊢
    by_cases hkl : k < (split d.text).length
    · have hcl : k <
          (chunkLoop d (split d.text).length (split d.text) 0 g).length := by
        rw [chunkLoop_length]; exact hkl
      rw [List.getElem?_append_left hcl]
      exact ⟨_, chunkLoop_getElem d (split d.text).length (split d.text)
        0 g k hkl, rfl⟩
    · have hlen : (chunkLoop d (split d.text).length
          (split d.text) 0 g).length = (split d.text).length :=
        chunkLoop_length d (split d.text).length (split d.text) 0 g
      rw [List.getElem?_append_right (by rw [hlen]; omega), hlen]
      have hk2 : k - (split d.text).length <
          (split_documents split ds (g + (split d.text).length)).length := by
        rw [List.length_append, hlen] at hk
        omega
      rcases ih (g + (split d.text).length) (k - (split d.text).length) hk2
        with ⟨c, hc1, hc2⟩
      refine ⟨c, hc1, ?_⟩
      rw [hc2]
      congr 1
      omega

/-- C7: `split_documents` numbers `chunk_index` from 0 within each
source document (the per-document loop is entered with index 0 and the
`j`-th produced chunk carries index `j`); `chunk_id` is
`"<document>_chunk_<n>"` where `n` is the value of the single global
counter, which — starting at 0 as in the source — equals the chunk's
overall position; consequently any two chunks at different positions of
one call have different chunk ids. -/
theorem split_documents_spec (split : String → List String)
    (docs : List Doc) :
    (∀ (d : Doc) (total : Nat) (ts : List String) (g j : Nat),
      j < ts.length →
      ∃ c, (chunkLoop d total ts 0 g)[j]? = some c ∧
        c.meta.chunk_index = Int.ofNat j) ∧
    (∀ k, k < (split_documents split docs 0).length →
      ∃ c, (split_documents split docs 0)[k]? = some c ∧
        c.meta.chunk_id = chunkId c.meta.document k) ∧
    (∀ (k1 k2 : Nat) (c1 c2 : Chunk),
      (split_documents split docs 0)[k1]? = some c1 →
      (split_documents split docs 0)[k2]? = some c2 →
      k1 ≠ k2 → c1.meta.chunk_id ≠ c2.meta.chunk_id) := by
  refine ⟨?_, ?_, ?_⟩
  · intro d total ts g j hj
    refine ⟨_, chunkLoop_getElem d total ts 0 g j hj, ?_⟩
    simp
  · intro k hk
    have := split_documents_getElem split docs 0 k hk
    simpa using this
  · intro k1 k2 c1 c2 h1 h2 hne heq
    have hk1 : k1 < (split_documents split docs 0).length := by
      by_contra hge
      rw [List.getElem?_eq_none (Nat.le_of_not_lt hge)] at h1
      cases h1
    have hk2 : k2 < (split_documents split docs 0).length := by
      by_contra hge
      rw [List.getElem?_eq_none (Nat.le_of_not_lt hge)] at h2
      cases h2
    rcases split_documents_getElem split docs 0 k1 hk1 with ⟨e1, he1, hid1⟩
    rcases split_documents_getElem split docs 0 k2 hk2 with ⟨e2, he2, hid2⟩
    rw [h1] at he1
    rw [h2] at he2
    cases he1
    cases he2
    rw [heq] at hid1
    rw [hid2] at hid1
    have := chunkId_counter_inj hid1.symm
    simp at this
    exact hne this

/-- C7 instance: two documents split into two chunks each; the chunk at
overall position 3 carries the global counter value 3 in its id. -/
theorem split_documents_spec_witness :
    ((3 : Nat) < (split_documents splitW docsW 0).length) ∧
    (∃ c, (split_documents splitW docsW 0)[3]? = some c ∧
      c.meta.chunk_id = chunkId c.meta.document 3) :=
  ⟨by decide, (split_documents_spec splitW docsW).2.1 3 (by decide)⟩
